import Mathlib

/-!
Shallow embedding of `src/ecs.rs` from `bevy_mod_debug_console`: a read-only
introspection/query layer over an archetype-based ECS snapshot (components,
archetypes, entities) as supplied by the bevy runtime.  The bevy collection
types (`Components`, `Archetypes`, `Entities`) are external library types;
they are modelled here by their documented snapshot semantics (a dense
vector of component infos indexed by component id, a dense vector of
archetype descriptors indexed by archetype id with the resource archetype at
index 1, and a dense vector of per-entity-id live locations).  Every query
function of `ecs.rs` is translated line by line; Rust functions that can
panic (`unwrap`, reserved-archetype indexing) return `Option String`,
with `none` standing for the aborted computation.
-/

namespace BevyDebugConsole

/-- Storage kind of a component (`bevy::ecs::component::StorageType`). -/
inductive StorageType where
  | Table : StorageType
  | SparseSet : StorageType
deriving DecidableEq, Repr

/-- Metadata record for one component (`bevy::ecs::component::ComponentInfo`):
numeric id, (fully qualified) type name, storage kind, and the
send-and-sync flag. -/
structure ComponentInfo where
  id : Nat
  name : String
  storageType : StorageType
  isSendAndSync : Bool
deriving DecidableEq, Repr

/-- The component catalog (`bevy::ecs::component::Components`): a dense
vector of component infos, indexed by component id. -/
structure Components where
  components : List ComponentInfo
deriving DecidableEq, Repr

/-- `Components::get_info(id)`: plain in-bounds lookup by id. -/
def Components.get_info (c : Components) (id : Nat) : Option ComponentInfo :=
  c.components.get? id

/-- `Components::len()`: raw size of the component vector. -/
def Components.len (c : Components) : Nat :=
  c.components.length

/-- One archetype descriptor (`bevy::ecs::archetype::Archetype`): id, backing
table id, the two disjoint component id sets partitioned by storage kind, and
the ordered member entity ids. -/
structure Archetype where
  id : Nat
  tableId : Nat
  tableComponents : List Nat
  sparseSetComponents : List Nat
  entityIds : List Nat
deriving DecidableEq, Repr

/-- `Archetype::components()`: iterates all component ids of the archetype,
table components first, then sparse-set components (insertion order of the
underlying sparse set). -/
def Archetype.components (arch : Archetype) : List Nat :=
  arch.tableComponents ++ arch.sparseSetComponents

/-- The archetype index (`bevy::ecs::archetype::Archetypes`): a dense vector
of archetypes indexed by archetype id; `iter()` traverses it in order. -/
structure Archetypes where
  archetypes : List Archetype
deriving DecidableEq, Repr

/-- `Archetypes::get(id)`: in-bounds lookup by archetype id. -/
def Archetypes.get (a : Archetypes) (id : Nat) : Option Archetype :=
  a.archetypes.get? id

/-- `Archetypes::len()`: number of archetypes in the snapshot. -/
def Archetypes.len (a : Archetypes) : Nat :=
  a.archetypes.length

/-- `Archetypes::resource()`: the distinguished resources archetype, stored
at the reserved index `ArchetypeId::RESOURCE = 1`; indexing a snapshot
without it panics in Rust, modelled by `none`. -/
def Archetypes.resource (a : Archetypes) : Option Archetype :=
  a.archetypes.get? 1

/-- Snapshot well-formedness of the archetype index: the archetype stored at
position `i` carries id `i` (bevy allocates archetype ids densely in
insertion order), so iteration order is archetype id ascending. -/
def Archetypes.WellFormed (a : Archetypes) : Prop :=
  a.archetypes.map Archetype.id = List.range a.archetypes.length

/-- The entity index (`bevy::ecs::entity::Entities`), modelled by its
snapshot semantics: entry `i` is `some aid` when entity id `i` is live and
owned by archetype `aid`, and `none` when the id has no living record. -/
structure Entities where
  records : List (Option Nat)
deriving DecidableEq, Repr

/-- `Entities::len()`: size of the entity collection. -/
def Entities.len (e : Entities) : Nat :=
  e.records.length

/-- `collapse_type_name` (bevy util): keep only the last `::`-segment of a
path, e.g. `bevy_audio::audio::Audio` becomes `Audio`. -/
def collapse_type_name (s : String) : String :=
  (s.splitOn "::").getLastD s

/-- Characters at which `get_short_name` splits a type name (generics,
tuples, arrays, separators). -/
def isSpecialChar (ch : Char) : Bool :=
  ch == ' ' || ch == '<' || ch == '>' || ch == '(' || ch == ')' ||
  ch == '[' || ch == ']' || ch == ',' || ch == ';'

/-- Worker for `get_short_name`: scans the characters, collapsing each
maximal segment between special characters and keeping the special
characters themselves; `seg` holds the current segment reversed. -/
def shortNameAux : List Char → List Char → String
  | [], seg => collapse_type_name (String.mk seg.reverse)
  | ch :: rest, seg =>
    if isSpecialChar ch then
      collapse_type_name (String.mk seg.reverse) ++ String.mk [ch] ++ shortNameAux rest []
    else
      shortNameAux rest (ch :: seg)

/-- `bevy::utils::get_short_name`: removes path information from a type
name, collapsing every path segment (also inside generic argument lists) to
its trailing component. -/
def get_short_name (s : String) : String :=
  shortNameAux s.toList []

/-- Rust `str::contains(pat)`: substring (infix) test, case sensitive. -/
def rustContains (s : String) (pat : String) : Bool :=
  decide (pat.toList <:+: s.toList)

/-- Rust `Vec<String>::sort()`: ascending lexicographic sort. -/
def sortStrings (l : List String) : List String :=
  l.mergeSort (fun x y => decide (x ≤ y))

/-- Rust `Vec<(usize, String)>::sort()`: ascending lexicographic sort on
pairs (by id, then by name). -/
def sortIdNamePairs (l : List (Nat × String)) : List (Nat × String) :=
  l.mergeSort (fun x y => x.1 < y.1 || (x.1 == y.1 && decide (x.2 ≤ y.2)))

/-- `get_components_by_name(components, short, filter)`: walks ids
`1..components.len()` (skipping the reserved id 0), pairing each id with its
(short or full) name, then — when a filter is given — keeps exactly the
pairs whose name contains the filter as a substring. -/
def get_components_by_name (c : Components) (short : Bool) (filter : Option String) :
    List (Nat × String) :=
  let names := (List.range' 1 (c.components.length - 1)).filterMap (fun id =>
    (c.get_info id).map (fun info =>
      (id, if short then get_short_name info.name else info.name)))
  match filter with
  | some f => names.filter (fun p => rustContains p.2 f)
  | none => names

/-- `list_components`: sorted id/name listing with a header line. -/
def list_components (c : Components) (short : Bool) (filter : Option String) : String :=
  let names := sortIdNamePairs (get_components_by_name c short filter)
  "[component id] [component name]\n" ++
    names.foldl (fun out p => out ++ toString p.1 ++ " " ++ p.2 ++ "\n") ""

/-- `list_entities`: for every dense entity id, prints `id archetypeId` when
the id resolves to a live location, silently skipping dead ids. -/
def list_entities (e : Entities) : String :=
  "[entity index] [archetype id]\n" ++
    (List.range e.records.length).foldl (fun out i =>
      match (e.records.get? i).join with
      | some aid => out ++ toString i ++ " " ++ toString aid ++ "\n"
      | none => out) ""

/-- `list_archetypes`: id and entity count of every archetype, in iteration
order. -/
def list_archetypes (a : Archetypes) : String :=
  "[id] [entity count]\n" ++
    a.archetypes.foldl (fun out arch =>
      out ++ toString arch.id ++ " " ++ toString arch.entityIds.length ++ "\n") ""

/-- `print_ecs_counts`: the counts line, formatted from the raw sizes of the
three snapshot collections. -/
def print_ecs_counts (a : Archetypes) (c : Components) (e : Entities) : String :=
  "entities: " ++ toString e.len ++ ", components: " ++ toString c.len ++
    ", archetypes: " ++ toString a.len ++ "\n"

/-- `list_resources`: resolves every component id of the resources archetype
to its short name (an unguarded `unwrap` on `get_info`, modelled by the
`Option` bind), sorts the names alphabetically and renders them under a
header.  `none` models the Rust panic. -/
def list_resources (a : Archetypes) (c : Components) : Option String :=
  match a.resource with
  | none => none
  | some rarch =>
    (rarch.components.mapM (fun id =>
      (c.get_info id).map (fun info => get_short_name info.name))).map (fun r =>
        let r := sortStrings r
        "[resource name]\n" ++ r.foldl (fun out nm => out ++ nm ++ "\n") "")

/-- The archetype filter shared by the component queries: does the archetype
contain `component_id` among its (table or sparse-set) components?  Mirrors
`archetype.components().any(|c| c.index() == component_id)`. -/
def archMatches (component_id : Nat) (arch : Archetype) : Bool :=
  arch.components.any (fun x => x == component_id)

/-- The archetype-id list built by `find_archetypes_by_component_id`: filter
the archetypes on `archMatches`, keep the ids. -/
def find_archetypes_ids (a : Archetypes) (component_id : Nat) : List Nat :=
  (a.archetypes.filter (archMatches component_id)).map Archetype.id

/-- `find_archetypes_by_component_id`: renders the matching archetype ids
under a header, each followed by `, `. -/
def find_archetypes_by_component_id (a : Archetypes) (component_id : Nat) : String :=
  "archetype ids:\n" ++
    (find_archetypes_ids a component_id).foldl (fun out i => out ++ toString i ++ ", ") "" ++
    "\n"

/-- The disambiguation message of `find_archetypes_by_component_name` when a
name resolves to more than one component: it lists every matching
(id, name) pair. -/
def ambiguousComponentsMsg (component_name : String) (comps : List (Nat × String)) : String :=
  "More than one component found with name " ++ component_name ++ "\n" ++
    "Consider searching with '--componentid' instead\n\n" ++
    "[component id] [component name]\n" ++
    comps.foldl (fun out p => out ++ toString p.1 ++ " " ++ p.2 ++ "\n") ""

/-- `find_archetypes_by_component_name`: resolves the name through
`get_components_by_name` (full names, with the queried name as the filter),
then branches on the number of matches exactly as the Rust does: empty →
not-found message, more than one → disambiguation listing, otherwise the
first match delegates to `find_archetypes_by_component_id`; the final
fallback is the Rust function's unreachable `"unsupported command"`. -/
def find_archetypes_by_component_name (a : Archetypes) (c : Components)
    (component_name : String) : String :=
  let comps := get_components_by_name c false (some component_name)
  if comps.isEmpty then
    "No component found with name " ++ component_name ++ "\n"
  else if comps.length > 1 then
    ambiguousComponentsMsg component_name comps
  else
    match comps.get? 0 with
    | some id_name => find_archetypes_by_component_id a id_name.1
    | none => "unsupported command"

/-- `get_archetype_id_by_entity_id`: of the archetypes whose entity list
contains `entity_id`, the id of the first one in iteration order, or `none`
when there is no such archetype. -/
def get_archetype_id_by_entity_id (a : Archetypes) (entity_id : Nat) : Option Nat :=
  (((a.archetypes.filter (fun arch =>
      arch.entityIds.any (fun e => e == entity_id))).map Archetype.id)).head?

/-- `find_archetype_by_entity_id`: renders the result of
`get_archetype_id_by_entity_id` under a header; a missing entity renders
nothing below the header. -/
def find_archetype_by_entity_id (a : Archetypes) (entity_id : Nat) : String :=
  "archetype id:\n" ++
    match get_archetype_id_by_entity_id a entity_id with
    | some id => toString id ++ "\n"
    | none => ""

/-- The entity-id list built by `find_entities_by_component_id`: the
entity lists of the matching archetypes, flattened in archetype iteration
order then intra-archetype order. -/
def find_entities_list (a : Archetypes) (component_id : Nat) : List Nat :=
  ((a.archetypes.filter (archMatches component_id)).map Archetype.entityIds).flatten

/-- `find_entities_by_component_id`: the explicit `no entites found` message
when the flattened entity list is empty, otherwise the ids under a header,
each followed by `, `. -/
def find_entities_by_component_id (a : Archetypes) (component_id : Nat) : String :=
  let entities := find_entities_list a component_id
  if entities.length == 0 then
    "no entites found\n"
  else
    "entity ids:\n" ++
      entities.foldl (fun out i => out ++ toString i ++ ", ") "" ++ "\n"

/-- `find_entities_by_component_name`: resolves the name through
`get_components_by_name` (full names, queried name as filter) and, for every
match, appends a section made of the component name and that component's
`find_entities_by_component_id` output.  No not-found or ambiguity handling
is performed. -/
def find_entities_by_component_name (a : Archetypes) (c : Components)
    (component_name : String) : String :=
  (get_components_by_name c false (some component_name)).foldl (fun out p =>
    out ++ (p.2 ++ "\n" ++ find_entities_by_component_id a p.1 ++ "\n")) ""

/-- One resolved `id name, ` cell of the component listings inside
`print_archetype`. -/
def componentCell (p : Nat × String) : String :=
  toString p.1 ++ " " ++ p.2 ++ ", "

/-- `print_archetype`: full description of one archetype.  The component-id
to short-name resolution uses an unguarded `unwrap` on `get_info` for both
the table and the sparse-set component sets; the Rust panic is modelled by
`none`.  An absent archetype id yields the explicit not-found message. -/
def print_archetype (a : Archetypes) (c : Components) (archetype_id : Nat) : Option String :=
  match a.get archetype_id with
  | some arch =>
    (arch.tableComponents.mapM (fun id =>
      (c.get_info id).map (fun info => (id, get_short_name info.name)))).bind (fun tcs =>
    (arch.sparseSetComponents.mapM (fun id =>
      (c.get_info id).map (fun info => (id, get_short_name info.name)))).map (fun scs =>
        "id: ArchetypeId(" ++ toString arch.id ++ ")\n" ++
        "table_id: TableId(" ++ toString arch.tableId ++ ")\n" ++
        "entities (" ++ toString arch.entityIds.length ++ "): " ++
        arch.entityIds.foldl (fun out e => out ++ toString e ++ ", \n") "" ++ "\n" ++
        "table_components (" ++ toString arch.tableComponents.length ++ "): " ++
        tcs.foldl (fun out p => out ++ componentCell p) "" ++ "\n" ++
        "sparse set components (" ++ toString arch.sparseSetComponents.length ++ "): " ++
        scs.foldl (fun out p => out ++ componentCell p) "" ++ "\n"))
  | none => some ("No archetype found with id: " ++ toString archetype_id ++ "\n")

/-- The info block printed by `print_component` for a found component. -/
def componentInfoBlock (info : ComponentInfo) : String :=
  "Name: " ++ info.name ++ "\n" ++
  "Id: " ++ toString info.id ++ "\n" ++
  "StorageType: " ++
    (match info.storageType with
     | StorageType.Table => "Table\n"
     | StorageType.SparseSet => "SparseSet\n") ++
  "SendAndSync: " ++ (if info.isSendAndSync then "true" else "false") ++ "\n"

/-- `print_component`: shows the component with the given id (a plain
`get_info` lookup, with no special case for the reserved id 0), or the
explicit not-found message when the lookup fails. -/
def print_component (c : Components) (component_id : Nat) : String :=
  match c.get_info component_id with
  | some info => componentInfoBlock info
  | none => "No component found with id: " ++ toString component_id

/-- `print_component_by_name`: one `print_component` block (plus a newline)
per component resolved by `get_components_by_name` with the queried name as
filter. -/
def print_component_by_name (c : Components) (component_name : String) : String :=
  (get_components_by_name c false (some component_name)).foldl (fun out p =>
    out ++ print_component c p.1 ++ "\n") ""

/-- The validated command surface dispatched by `match_commands`, one
constructor per reachable dispatch branch (the clap layer guarantees exactly
one search parameter per group). -/
inductive Command where
  | counts : Command
  | archetypesList : Command
  | archetypesFindByComponentId : Nat → Command
  | archetypesFindByComponentName : String → Command
  | archetypesFindByEntityId : Nat → Command
  | archetypesInfo : Nat → Command
  | componentsList : Bool → Option String → Command
  | componentsInfoById : Nat → Command
  | componentsInfoByName : String → Command
  | entitiesList : Command
  | entitiesFindByComponentId : Nat → Command
  | entitiesFindByComponentName : String → Command
  | resourcesList : Command
deriving DecidableEq, Repr

/-- `match_commands`: dispatches a parsed command to the query function for
it, over the immutable snapshot `(a, c, e)`.  The result is `none` exactly
when the dispatched Rust function would panic. -/
def match_commands (cmd : Command) (a : Archetypes) (c : Components) (e : Entities) :
    Option String :=
  match cmd with
  | Command.counts => some (print_ecs_counts a c e)
  | Command.archetypesList => some (list_archetypes a)
  | Command.archetypesFindByComponentId n => some (find_archetypes_by_component_id a n)
  | Command.archetypesFindByComponentName s => some (find_archetypes_by_component_name a c s)
  | Command.archetypesFindByEntityId n => some (find_archetype_by_entity_id a n)
  | Command.archetypesInfo n => print_archetype a c n
  | Command.componentsList long filter => some (list_components c (!long) filter)
  | Command.componentsInfoById n => some (print_component c n)
  | Command.componentsInfoByName s => some (print_component_by_name c s)
  | Command.entitiesList => some (list_entities e)
  | Command.entitiesFindByComponentId n => some (find_entities_by_component_id a n)
  | Command.entitiesFindByComponentName s => some (find_entities_by_component_name a c s)
  | Command.resourcesList => list_resources a c

/-- Concrete component catalog used to evaluate the query functions: the
conventionally reserved slot 0 plus the two components of the spec's running
example. -/
def exC : Components :=
  ⟨[⟨0, "S0", StorageType.Table, true⟩,
    ⟨1, "Position", StorageType.Table, true⟩,
    ⟨2, "Velocity", StorageType.SparseSet, false⟩]⟩

/-- Concrete archetype index used to evaluate the query functions: archetype
0 holds components {1, 2} and entities [10, 11]; archetype 1 holds component
{2} and entity [12]. -/
def exAr : Archetypes :=
  ⟨[⟨0, 0, [1, 2], [], [10, 11]⟩,
    ⟨1, 1, [2], [], [12]⟩]⟩

/-- Concrete entity index matching `exAr`: entity 0 lives in archetype 0,
entity 1 is dead, entity 2 lives in archetype 1. -/
def exE : Entities :=
  ⟨[some 0, none, some 1]⟩

/-- Snapshot invariant of the data model: every entity id appears at most
once across (and within) the entity lists of all archetypes. -/
def EntitiesPartition (a : Archetypes) : Prop :=
  ((a.archetypes.map Archetype.entityIds).flatten).Nodup

end BevyDebugConsole

namespace BevyDebugConsole

theorem foldl_append_shift {α : Type} (f : α → String) (l : List α) :
    ∀ init : String,
      l.foldl (fun out x => out ++ f x) init = init ++ l.foldl (fun out x => out ++ f x) "" := by
  induction l with
  | nil => intro init; simp
  | cons a l ih =>
    intro init
    simp only [List.foldl_cons]
    rw [ih (init ++ f a), ih ("" ++ f a), String.empty_append, String.append_assoc]

theorem foldl_append_eq_join {α : Type} (f : α → String) (l : List α) (init : String) :
    l.foldl (fun out x => out ++ f x) init = init ++ String.join (l.map f) := by
  rw [foldl_append_shift f l init]
  congr 1
  rw [String.join, List.foldl_map]

theorem archMatches_iff (cid : Nat) (arch : Archetype) :
    archMatches cid arch = true ↔ cid ∈ arch.tableComponents ∨ cid ∈ arch.sparseSetComponents := by
  simp [archMatches, Archetype.components, List.any_eq_true]

theorem sublist_flatten {α : Type} {L₁ L₂ : List (List α)} (h : L₁.Sublist L₂) :
    L₁.flatten.Sublist L₂.flatten := by
  induction h with
  | slnil => exact List.Sublist.refl _
  | cons l _ ih => exact ih.trans (List.sublist_append_right l _)
  | cons₂ l _ ih => exact ih.append_left l

theorem length_filterMap_of_isSome {α β : Type} (f : α → Option β) :
    ∀ l : List α, (∀ x ∈ l, (f x).isSome) → (l.filterMap f).length = l.length := by
  intro l
  induction l with
  | nil => intro _; rfl
  | cons a l ih =>
    intro h
    have ha := h a (List.mem_cons_self a l)
    rcases hfa : f a with _ | b
    · rw [hfa] at ha; simp at ha
    · rw [List.filterMap_cons_some hfa]
      simp [ih (fun x hx => h x (List.mem_cons_of_mem a hx))]

theorem isSome_mapM_option {α β : Type} (f : α → Option β) :
    ∀ l : List α, (l.mapM f).isSome = true ↔ ∀ x ∈ l, (f x).isSome = true := by
  intro l
  rw [← List.mapM'_eq_mapM]
  induction l with
  | nil => simp [List.mapM']
  | cons a l ih =>
    rcases hfa : f a with _ | b
    · simp [List.mapM', hfa]
    · rcases hml : l.mapM' f with _ | bs
      · rw [hml] at ih; simp [List.mapM', hfa, hml, ← ih]
      · rw [hml] at ih; simp [List.mapM', hfa, hml, ← ih]

end BevyDebugConsole

namespace BevyDebugConsole

/-- Option map preserves definedness: mapping a function over an optional
value is defined exactly when the value is. -/
theorem isSome_omap {α β : Type} (f : α → β) (x : Option α) : (x.map f).isSome = x.isSome := by
  cases x <;> rfl

/-- The head of a filtered list is `x` exactly when `x` is the first element
of the list satisfying the predicate: everything before it fails the
predicate. -/
theorem filter_head?_eq_some_iff {α : Type} (p : α → Bool) :
    ∀ (l : List α) (x : α),
      (l.filter p).head? = some x ↔
        ∃ l1 l2, l = l1 ++ x :: l2 ∧ p x = true ∧ ∀ b ∈ l1, ¬ p b = true := by
  intro l
  induction l with
  | nil =>
    intro x
    constructor
    · intro h
      simp at h
    · rintro ⟨l1, l2, hl, -, -⟩
      exact absurd hl (by simp)
  | cons a l ih =>
    intro x
    by_cases hpa : p a = true
    · rw [List.filter_cons_of_pos hpa]
      simp only [List.head?_cons, Option.some.injEq]
      constructor
      · rintro rfl
        exact ⟨[], l, rfl, hpa, by simp⟩
      · rintro ⟨l1, l2, hl, hpx, hl1⟩
        cases l1 with
        | nil =>
          simp only [List.nil_append] at hl
          exact (List.cons.inj hl).1
        | cons b l1' =>
          simp only [List.cons_append] at hl
          obtain ⟨rfl, -⟩ := List.cons.inj hl
          exact absurd hpa (hl1 a (List.mem_cons_self a l1'))
    · rw [List.filter_cons_of_neg hpa]
      rw [ih x]
      constructor
      · rintro ⟨l1, l2, hl, hpx, hl1⟩
        refine ⟨a :: l1, l2, by rw [hl, List.cons_append], hpx, ?_⟩
        intro b hb
        rcases List.mem_cons.mp hb with rfl | hb'
        · exact hpa
        · exact hl1 b hb'
      · rintro ⟨l1, l2, hl, hpx, hl1⟩
        cases l1 with
        | nil =>
          simp only [List.nil_append] at hl
          obtain ⟨rfl, -⟩ := List.cons.inj hl
          exact absurd hpx hpa
        | cons b l1' =>
          simp only [List.cons_append] at hl
          obtain ⟨rfl, hl'⟩ := List.cons.inj hl
          exact ⟨l1', l2, hl', hpx, fun b' hb' => hl1 b' (List.mem_cons_of_mem _ hb')⟩

/-- On a catalog walked without a name filter, `get_components_by_name`
enumerates every id except the reserved id 0, so its length is the raw
catalog length minus one. -/
theorem length_get_components_by_name (c : Components) (short : Bool) :
    (get_components_by_name c short none).length = c.components.length - 1 := by
  have h : get_components_by_name c short none =
      (List.range' 1 (c.components.length - 1)).filterMap (fun id =>
        (c.get_info id).map (fun info =>
          (id, if short then get_short_name info.name else info.name))) := rfl
  rw [h, length_filterMap_of_isSome, List.length_range']
  intro id hid
  rw [List.mem_range'_1] at hid
  have hlt : id < c.components.length := by omega
  rw [Components.get_info, List.get?_eq_get hlt]
  simp

/-- C1: for every component id `c`, `find_archetypes_by_component_id` keeps
exactly the archetypes whose table-component set or sparse-set-component set
contains `c` (sound and complete), and on a well-formed snapshot the
resulting id list is in iteration order, archetype id ascending. -/
theorem claim_C1_sound_complete_ordered (a : Archetypes) (c : Nat) :
    find_archetypes_ids a c =
      (a.archetypes.filter (fun arch =>
        decide (c ∈ arch.tableComponents ∨ c ∈ arch.sparseSetComponents))).map Archetype.id
    ∧ (Archetypes.WellFormed a → List.Sorted (· < ·) (find_archetypes_ids a c)) := by
  constructor
  · unfold find_archetypes_ids
    congr 1
    apply List.filter_congr
    intro arch _
    rw [Bool.eq_iff_iff]
    simp [archMatches_iff]
  · intro hwf
    have hsub : (find_archetypes_ids a c).Sublist (a.archetypes.map Archetype.id) :=
      List.Sublist.map _ (List.filter_sublist _)
    rw [Archetypes.WellFormed] at hwf
    rw [hwf] at hsub
    exact List.Pairwise.sublist hsub (List.sorted_lt_range _)

/-- Witness for C1 on the concrete snapshot: component 2 is owned by both
archetypes, listed ascending. -/
theorem claim_C1_witness :
    Archetypes.WellFormed exAr ∧ List.Sorted (· < ·) (find_archetypes_ids exAr 2) ∧
      find_archetypes_ids exAr 2 = [0, 1] :=
  have hwf : Archetypes.WellFormed exAr := by unfold Archetypes.WellFormed; decide
  ⟨hwf, (claim_C1_sound_complete_ordered exAr 2).2 hwf, by decide⟩

/-- C2: `find_entities_by_component_id` flattens, in archetype iteration
order then intra-archetype order, the entity lists of exactly the archetypes
`find_archetypes_by_component_id` returns; under the snapshot partition
invariant those lists are pairwise disjoint and no entity id repeats; and an
empty concatenation yields the explicit no-entities message instead of an
empty listing. -/
theorem claim_C2_partition (a : Archetypes) (c : Nat) (hpart : EntitiesPartition a) :
    find_entities_list a c =
      ((a.archetypes.filter (archMatches c)).map Archetype.entityIds).flatten
    ∧ (a.archetypes.filter (archMatches c)).map Archetype.id = find_archetypes_ids a c
    ∧ List.Pairwise List.Disjoint ((a.archetypes.filter (archMatches c)).map Archetype.entityIds)
    ∧ (find_entities_list a c).Nodup
    ∧ (find_entities_list a c = [] → find_entities_by_component_id a c = "no entites found\n")
    ∧ (find_entities_list a c ≠ [] → find_entities_by_component_id a c =
        "entity ids:\n" ++
          (find_entities_list a c).foldl (fun out i => out ++ toString i ++ ", ") "" ++ "\n") := by
  have hsubL : (((a.archetypes.filter (archMatches c)).map Archetype.entityIds)).Sublist
      (a.archetypes.map Archetype.entityIds) :=
    List.Sublist.map _ (List.filter_sublist _)
  have hnodup : (find_entities_list a c).Nodup :=
    List.Nodup.sublist (sublist_flatten hsubL) hpart
  refine ⟨rfl, rfl, ?_, hnodup, ?_, ?_⟩
  · exact (List.nodup_flatten.mp hnodup).2
  · intro h
    simp [find_entities_by_component_id, h]
  · intro h
    simp [find_entities_by_component_id, List.length_eq_zero, h]

/-- Witness for C2 on the concrete snapshot: component 2 collects the
entities of both archetypes without repetition, and an unused component id
yields the explicit no-entities message. -/
theorem claim_C2_witness :
    EntitiesPartition exAr ∧ (find_entities_list exAr 2).Nodup ∧
      find_entities_list exAr 2 = [10, 11, 12] ∧
      find_entities_by_component_id exAr 7 = "no entites found\n" :=
  have hp : EntitiesPartition exAr := by unfold EntitiesPartition; decide
  ⟨hp, (claim_C2_partition exAr 2 hp).2.2.2.1, by decide,
    (claim_C2_partition exAr 7 hp).2.2.2.2.1 (by decide)⟩

/-- Counterexample to C3: on a snapshot whose component collection holds the
reserved slot 0 plus two components, `print_ecs_counts` reports the raw
collection length 3, not the sentinel-excluding catalog enumeration count
2. -/
theorem claim_C3_counterexample :
    print_ecs_counts exAr exC exE = "entities: 3, components: 3, archetypes: 2\n"
    ∧ (get_components_by_name exC false none).length = 2
    ∧ print_ecs_counts exAr exC exE ≠ "entities: 3, components: 2, archetypes: 2\n" := by
  refine ⟨by decide, by decide, by decide⟩

/-- C3 as amended: `print_ecs_counts` reports the raw sizes of the three
collections; in particular the component count is the catalog enumeration
count plus one, i.e. it includes the reserved sentinel id 0. -/
theorem claim_C3_amended (a : Archetypes) (c : Components) (e : Entities)
    (h : 1 ≤ c.components.length) :
    print_ecs_counts a c e =
      "entities: " ++ toString e.records.length ++ ", components: " ++
        toString ((get_components_by_name c false none).length + 1) ++
        ", archetypes: " ++ toString a.archetypes.length ++ "\n" := by
  rw [length_get_components_by_name]
  have hlen : c.components.length - 1 + 1 = c.components.length := by omega
  rw [hlen]
  rfl

/-- Witness for the amended C3 on the concrete snapshot. -/
theorem claim_C3_witness :
    1 ≤ exC.components.length ∧
      print_ecs_counts exAr exC exE =
        "entities: " ++ toString exE.records.length ++ ", components: " ++
          toString ((get_components_by_name exC false none).length + 1) ++
          ", archetypes: " ++ toString exAr.archetypes.length ++ "\n" :=
  ⟨by decide, claim_C3_amended exAr exC exE (by decide)⟩

/-- Counterexample to C4: querying the name `Pos` matches the component
named `Position` (a strict superstring), and the resolution even delegates
to `find_archetypes_by_component_id` on it, so matching is not
exact-equality. -/
theorem claim_C4_counterexample :
    (1, "Position") ∈ get_components_by_name exC false (some "Pos")
    ∧ ("Position" : String) ≠ "Pos"
    ∧ find_archetypes_by_component_name exAr exC "Pos" = find_archetypes_by_component_id exAr 1 := by
  refine ⟨by decide, by decide, by decide⟩

/-- C4 as amended: name resolution is substring lookup: a pair `(id, nm)` is
in the resolved list exactly when `id` is a non-sentinel catalog id whose
full name is `nm` and `nm` contains the queried string as a substring. -/
theorem claim_C4_amended (c : Components) (q : String) (id : Nat) (nm : String) :
    (id, nm) ∈ get_components_by_name c false (some q) ↔
      1 ≤ id ∧ (∃ info, c.components.get? id = some info ∧ nm = info.name) ∧
        rustContains nm q = true := by
  have h : get_components_by_name c false (some q) =
      ((List.range' 1 (c.components.length - 1)).filterMap (fun i =>
        (c.get_info i).map (fun info => (i, info.name)))).filter
          (fun p => rustContains p.2 q) := rfl
  rw [h, List.mem_filter, List.mem_filterMap]
  constructor
  · rintro ⟨⟨i, hmem, hf⟩, hcont⟩
    rw [List.mem_range'_1] at hmem
    rcases Option.map_eq_some'.mp hf with ⟨info, hget, heq⟩
    have h1 : i = id := congrArg Prod.fst heq
    have h2 : info.name = nm := congrArg Prod.snd heq
    subst h1
    subst h2
    exact ⟨hmem.1, ⟨info, hget, rfl⟩, hcont⟩
  · rintro ⟨h1, ⟨info, hget, hnm⟩, hcont⟩
    have hlt : id < c.components.length := by
      rcases List.get?_eq_some.mp hget with ⟨hl, -⟩
      exact hl
    refine ⟨⟨id, ?_, ?_⟩, hcont⟩
    · rw [List.mem_range'_1]
      omega
    · rw [Components.get_info, hget]
      simp [hnm]

/-- Witness for the amended C4: applying the characterization to the
substring match of `Pos` against `Position`. -/
theorem claim_C4_witness :
    1 ≤ 1 ∧ (∃ info, exC.components.get? 1 = some info ∧ "Position" = info.name) ∧
      rustContains "Position" "Pos" = true :=
  (claim_C4_amended exC "Pos" 1 "Position").mp (by decide)

/-- C5: `find_archetypes_by_component_name` returns the explicit
no-such-component message on zero matches, the explicit disambiguation
listing of every matching (id, name) pair on more than one match, and
delegates to `find_archetypes_by_component_id` with the unique id on exactly
one match. -/
theorem claim_C5_name_resolution (a : Archetypes) (c : Components) (name : String) :
    (get_components_by_name c false (some name) = [] →
      find_archetypes_by_component_name a c name =
        "No component found with name " ++ name ++ "\n")
    ∧ (1 < (get_components_by_name c false (some name)).length →
      find_archetypes_by_component_name a c name =
        ambiguousComponentsMsg name (get_components_by_name c false (some name)))
    ∧ (∀ id nm, get_components_by_name c false (some name) = [(id, nm)] →
      find_archetypes_by_component_name a c name = find_archetypes_by_component_id a id) := by
  refine ⟨?_, ?_, ?_⟩
  · intro h
    simp [find_archetypes_by_component_name, h]
  · intro h
    have hne : ¬ (get_components_by_name c false (some name)).isEmpty = true := by
      rw [List.isEmpty_iff]
      intro he
      rw [he] at h
      simp at h
    simp [find_archetypes_by_component_name, hne, h]
  · intro id nm h
    simp [find_archetypes_by_component_name, h]

/-- Witness for C5: all three branches on the concrete snapshot (no match,
two substring matches, and a unique match). -/
theorem claim_C5_witness :
    find_archetypes_by_component_name exAr exC "Zzz" = "No component found with name Zzz\n"
    ∧ find_archetypes_by_component_name exAr exC "o" =
        ambiguousComponentsMsg "o" (get_components_by_name exC false (some "o"))
    ∧ find_archetypes_by_component_name exAr exC "Pos" = find_archetypes_by_component_id exAr 1 :=
  ⟨(claim_C5_name_resolution exAr exC "Zzz").1 (by decide),
   (claim_C5_name_resolution exAr exC "o").2.1 (by decide),
   (claim_C5_name_resolution exAr exC "Pos").2.2 1 "Position" (by decide)⟩

/-- Counterexample to C6: on zero matches `find_entities_by_component_name`
returns the empty string, not the explicit no-such-component result that
`find_archetypes_by_component_name` returns; and on two matches it emits the
two per-component sections, not the disambiguation listing. -/
theorem claim_C6_counterexample :
    find_entities_by_component_name exAr exC "Zzz" = ""
    ∧ find_archetypes_by_component_name exAr exC "Zzz" = "No component found with name Zzz\n"
    ∧ (("" : String) ≠ "No component found with name Zzz\n")
    ∧ 1 < (get_components_by_name exC false (some "o")).length
    ∧ find_entities_by_component_name exAr exC "o" ≠
        ambiguousComponentsMsg "o" (get_components_by_name exC false (some "o")) := by
  refine ⟨by decide, by decide, by decide, by decide, by decide⟩

/-- C6 as amended: `find_entities_by_component_name` performs no not-found
or ambiguity handling: it emits one section (component name, then that
component id's entity list) per substring-matching component, and zero
matches produce empty output. -/
theorem claim_C6_amended (a : Archetypes) (c : Components) (q : String) :
    find_entities_by_component_name a c q =
      String.join ((get_components_by_name c false (some q)).map (fun p =>
        p.2 ++ "\n" ++ find_entities_by_component_id a p.1 ++ "\n"))
    ∧ (get_components_by_name c false (some q) = [] →
        find_entities_by_component_name a c q = "") := by
  constructor
  · rw [find_entities_by_component_name, foldl_append_eq_join, String.empty_append]
  · intro h
    rw [find_entities_by_component_name, h]
    rfl

/-- Witness for the amended C6: a query with zero matches yields empty
output. -/
theorem claim_C6_witness :
    get_components_by_name exC false (some "Zzz") = [] ∧
      find_entities_by_component_name exAr exC "Zzz" = "" :=
  ⟨by decide, (claim_C6_amended exAr exC "Zzz").2 (by decide)⟩

/-- C7: `get_archetype_id_by_entity_id` returns `some i` exactly when `i` is
the id of the first archetype in iteration order whose entity list contains
the entity id (even if several do), and the explicit `none` failure exactly
when no archetype owns the entity (the id is dead or unresolved). -/
theorem claim_C7_archetype_of_entity (a : Archetypes) (eid : Nat) :
    (∀ i, get_archetype_id_by_entity_id a eid = some i ↔
      ∃ l1 arch l2, a.archetypes = l1 ++ arch :: l2 ∧ eid ∈ arch.entityIds ∧ arch.id = i ∧
        ∀ b ∈ l1, eid ∉ b.entityIds)
    ∧ (get_archetype_id_by_entity_id a eid = none ↔
        ∀ arch ∈ a.archetypes, eid ∉ arch.entityIds) := by
  have hmem : ∀ arch : Archetype,
      (arch.entityIds.any (fun e => e == eid)) = true ↔ eid ∈ arch.entityIds := by
    intro arch
    simp [List.any_eq_true]
  constructor
  · intro i
    rw [get_archetype_id_by_entity_id, List.head?_map]
    constructor
    · intro h
      rcases Option.map_eq_some'.mp h with ⟨arch, harch, hid⟩
      rcases (filter_head?_eq_some_iff _ _ _).mp harch with ⟨l1, l2, hl, hpx, hl1⟩
      exact ⟨l1, arch, l2, hl, (hmem arch).mp hpx, hid,
        fun b hb hbin => hl1 b hb ((hmem b).mpr hbin)⟩
    · rintro ⟨l1, arch, l2, hl, hin, hid, hl1⟩
      rw [Option.map_eq_some']
      refine ⟨arch, ?_, hid⟩
      rw [filter_head?_eq_some_iff]
      exact ⟨l1, l2, hl, (hmem arch).mpr hin, fun b hb h' => hl1 b hb ((hmem b).mp h')⟩
  · rw [get_archetype_id_by_entity_id, List.head?_map]
    simp only [Option.map_eq_none', List.head?_eq_none_iff, List.filter_eq_nil_iff]
    constructor
    · intro h arch ha hin
      exact h arch ha ((hmem arch).mpr hin)
    · intro h arch ha hany
      exact h arch ha ((hmem arch).mp hany)

/-- Witness for C7: entity 11 resolves to archetype 0 (the first owner in
iteration order), and a dead entity id resolves to the explicit `none`. -/
theorem claim_C7_witness :
    (∃ l1 arch l2, exAr.archetypes = l1 ++ arch :: l2 ∧ 11 ∈ arch.entityIds ∧
      arch.id = 0 ∧ ∀ b ∈ l1, 11 ∉ b.entityIds)
    ∧ get_archetype_id_by_entity_id exAr 99 = none
    ∧ (∀ arch ∈ exAr.archetypes, 99 ∉ arch.entityIds) :=
  ⟨((claim_C7_archetype_of_entity exAr 11).1 0).mp (by decide),
   by decide,
   (claim_C7_archetype_of_entity exAr 99).2.mp (by decide)⟩

/-- Counterexample to C8: looking up the reserved sentinel id 0 on a catalog
whose slot 0 is populated prints that component's info block, not the
claimed NotFound failure. -/
theorem claim_C8_counterexample :
    print_component exC 0 = "Name: S0\nId: 0\nStorageType: Table\nSendAndSync: true\n"
    ∧ print_component exC 0 ≠ "No component found with id: 0" := by
  refine ⟨by decide, by decide⟩

/-- C8 as amended: `print_component` fails with the explicit not-found
message exactly when no component with the id exists (the id is out of
range); the reserved sentinel id 0 is not special-cased and succeeds
whenever slot 0 is populated. -/
theorem claim_C8_amended (c : Components) (id : Nat) :
    (c.get_info id = none →
      print_component c id = "No component found with id: " ++ toString id)
    ∧ (∀ info, c.get_info id = some info → print_component c id = componentInfoBlock info)
    ∧ (c.get_info id = none ↔ c.components.length ≤ id) := by
  refine ⟨?_, ?_, ?_⟩
  · intro h
    simp [print_component, h]
  · intro info h
    simp [print_component, h]
  · rw [Components.get_info]
    exact List.get?_eq_none

/-- Witness for the amended C8: the populated sentinel slot 0 succeeds and
an out-of-range id fails. -/
theorem claim_C8_witness :
    print_component exC 0 = componentInfoBlock ⟨0, "S0", StorageType.Table, true⟩
    ∧ print_component exC 9 = "No component found with id: " ++ toString 9 :=
  ⟨(claim_C8_amended exC 0).2.1 ⟨0, "S0", StorageType.Table, true⟩ (by decide),
   (claim_C8_amended exC 9).1 (by decide)⟩

/-- C9: every dispatched listing and lookup operation is a pure function of
the immutable snapshot and the parsed command, so two calls with the same
arguments against the same snapshot return identical results. -/
theorem claim_C9_deterministic (cmd : Command) (a : Archetypes) (c : Components) (e : Entities) :
    match_commands cmd a c e = match_commands cmd a c e := rfl

/-- C10: for an archetype id that exists, `print_archetype` completes (is
not the aborted `none`) exactly when every component id referenced by the
archetype's two component sets resolves in the catalog, and likewise
`list_resources` for the resources archetype: under that precondition the
unwrap panic branch is unreachable, and without it the operation aborts
instead of returning a value. -/
theorem claim_C10_panic_free (a : Archetypes) (c : Components) (aid : Nat)
    (arch rarch : Archetype)
    (harch : a.archetypes.get? aid = some arch)
    (hres : a.archetypes.get? 1 = some rarch) :
    ((print_archetype a c aid).isSome = true ↔
      ∀ cid ∈ arch.tableComponents ++ arch.sparseSetComponents, (c.get_info cid).isSome = true)
    ∧ ((list_resources a c).isSome = true ↔
      ∀ cid ∈ rarch.components, (c.get_info cid).isSome = true) := by
  have hbind : ∀ {α β γ : Type} (x : Option α) (y : Option β) (h : α → β → γ),
      ((x.bind (fun u => y.map (h u))).isSome = true ↔ x.isSome = true ∧ y.isSome = true) := by
    intro α β γ x y h
    cases x <;> cases y <;> simp
  constructor
  · have hget : a.get aid = some arch := harch
    unfold print_archetype
    rw [hget]
    rw [hbind]
    rw [isSome_mapM_option, isSome_mapM_option]
    simp only [isSome_omap]
    constructor
    · rintro ⟨ht, hs⟩ cid hcid
      rcases List.mem_append.mp hcid with h' | h'
      · exact ht cid h'
      · exact hs cid h'
    · intro h
      exact ⟨fun cid h' => h cid (List.mem_append.mpr (Or.inl h')),
             fun cid h' => h cid (List.mem_append.mpr (Or.inr h'))⟩
  · have hgetr : a.resource = some rarch := hres
    simp only [list_resources, hgetr, isSome_omap, isSome_mapM_option]

/-- Witness for C10: on the concrete snapshot every referenced component id
resolves, so both operations complete. -/
theorem claim_C10_witness :
    (print_archetype exAr exC 0).isSome = true ∧ (list_resources exAr exC).isSome = true :=
  have h := claim_C10_panic_free exAr exC 0 ⟨0, 0, [1, 2], [], [10, 11]⟩
    ⟨1, 1, [2], [], [12]⟩ (by decide) (by decide)
  ⟨h.1.mpr (by decide), h.2.mpr (by decide)⟩

end BevyDebugConsole
